import Mathlib

/-!
Shallow embedding of the pensa feature-comparison, PCA-projection and
combined-clustering routines (`src/analysis.py`, `src/pensa/pca.py`,
`src/scripts/calculate_combined_clusters.py`).

Modelling conventions:
* NumPy/SciPy/PyEMMA/MDAnalysis are external collaborators.  Pure library
  calls with documented semantics (`np.histogram`, `np.argsort`, `np.unique`,
  `np.mean`, boolean masking) are re-implemented faithfully on `List ℚ`;
  genuinely external computations (SciPy's `kl_div`/`jensenshannon`/`ks_2samp`,
  PyEMMA's clustering) are passed in as explicit function parameters carrying
  exactly the arguments the source hands them.  File/plot I/O does not affect
  any returned value and is dropped.
* Machine floats are modelled by rationals.
* Python `assert` failures, `NameError` and `IndexError` are modelled by
  `Except String`.
-/

namespace Pensa

/-- Arithmetic mean of a list, `np.mean` (0 on the empty list, where NumPy
would produce NaN; every use below is on nonempty data). -/
def pymean (l : List ℚ) : ℚ := l.sum / l.length

/-- Minimum of a list, `np.min` (junk value 0 on the empty list, where NumPy
raises). -/
def listMin : List ℚ → ℚ
  | [] => 0
  | x :: xs => xs.foldl min x

/-- Maximum of a list, `np.max`. -/
def listMax : List ℚ → ℚ
  | [] => 0
  | x :: xs => xs.foldl max x

/-- Dot product `np.dot` of two equal-length vectors. -/
def dot (xs ys : List ℚ) : ℚ := (List.zipWith (· * ·) xs ys).sum

/-- Column `j` of a row-major matrix, `M[:, j]`. -/
def column (m : List (List ℚ)) (j : ℕ) : List ℚ := m.map (fun row => row.getD j 0)

section MinMaxLemmas

theorem foldl_min_le (ys : List ℚ) (a : ℚ) :
    ys.foldl min a ≤ a ∧ ∀ x ∈ ys, ys.foldl min a ≤ x := by
  induction ys generalizing a with
  | nil => simp
  | cons z zs ih =>
    obtain ⟨h1, h2⟩ := ih (min a z)
    refine ⟨?_, ?_⟩
    · exact le_trans h1 (min_le_left a z)
    · intro x hx
      rcases List.mem_cons.mp hx with h | h
      · subst h; exact le_trans h1 (min_le_right a x)
      · exact h2 x h

theorem le_foldl_max (ys : List ℚ) (a : ℚ) :
    a ≤ ys.foldl max a ∧ ∀ x ∈ ys, x ≤ ys.foldl max a := by
  induction ys generalizing a with
  | nil => simp
  | cons z zs ih =>
    obtain ⟨h1, h2⟩ := ih (max a z)
    refine ⟨?_, ?_⟩
    · exact le_trans (le_max_left a z) h1
    · intro x hx
      rcases List.mem_cons.mp hx with h | h
      · subst h; exact le_trans (le_max_right a x) h1
      · exact h2 x h

theorem listMin_le_of_mem {x : ℚ} {l : List ℚ} (hx : x ∈ l) : listMin l ≤ x := by
  cases l with
  | nil => cases hx
  | cons y ys =>
    rcases List.mem_cons.mp hx with h | h
    · subst h; exact (foldl_min_le ys x).1
    · exact (foldl_min_le ys y).2 x h

theorem le_listMax_of_mem {x : ℚ} {l : List ℚ} (hx : x ∈ l) : x ≤ listMax l := by
  cases l with
  | nil => cases hx
  | cons y ys =>
    rcases List.mem_cons.mp hx with h | h
    · subst h; exact (le_foldl_max ys x).1
    · exact (le_foldl_max ys y).2 x h

theorem listMin_le_listMax {l : List ℚ} (h : l ≠ []) : listMin l ≤ listMax l := by
  cases l with
  | nil => exact absurd rfl h
  | cons y ys =>
    exact le_trans (listMin_le_of_mem (List.mem_cons_self y ys))
      (le_listMax_of_mem (List.mem_cons_self y ys))

end MinMaxLemmas

/-! Histogram machinery of `np.histogram`, as used by
`relative_entropy_analysis` (analysis.py lines 48-52). -/

/-- The histogram range NumPy uses: `(min, max)` of the data, widened to
`(min - 0.5, max + 0.5)` when all values coincide. -/
def histRange (xs : List ℚ) : ℚ × ℚ :=
  let m := listMin xs
  let M := listMax xs
  if m = M then (m - 1/2, m + 1/2) else (m, M)

/-- Left edge and common bin width of the uniform `n`-bin grid `np.histogram`
lays over `xs` (the edges are `linspace(lo, hi, n+1)`). -/
def histLoW (xs : List ℚ) (n : ℕ) : ℚ × ℚ :=
  ((histRange xs).1, ((histRange xs).2 - (histRange xs).1) / n)

/-- The edge array `histo_both[1]` of line 48: `n+1` equally spaced edges over
the data of `xs`; it is the `bins=` argument of the histogram calls of lines
49 and 51. -/
def histEdges (xs : List ℚ) (n : ℕ) : List ℚ :=
  (List.range (n + 1)).map (fun j => (histLoW xs n).1 + j * (histLoW xs n).2)

/-- Membership of a value in bin `j` of `n` uniform bins: half-open intervals,
except the last bin which is closed on the right (NumPy's convention). -/
def inBin (lo w : ℚ) (n j : ℕ) (x : ℚ) : Bool :=
  decide (lo + j * w ≤ x) &&
    (if j + 1 = n then decide (x ≤ lo + (j + 1) * w) else decide (x < lo + (j + 1) * w))

/-- Per-bin counts of `xs` on the uniform grid.  Values outside the grid are
not counted (NumPy ignores data outside explicitly given edges). -/
def binCounts (lo w : ℚ) (n : ℕ) (xs : List ℚ) : List ℕ :=
  (List.range n).map (fun j => (xs.filter (fun x => inBin lo w n j x)).length)

/-- `np.histogram(xs, density=True, bins=histEdges pooled n)[0]`: each bin
count divided by (bin width × total in-range count). -/
def histDensity (pooled xs : List ℚ) (n : ℕ) : List ℚ :=
  (binCounts (histLoW pooled n).1 (histLoW pooled n).2 n xs).map
    (fun c : ℕ => (c : ℚ) /
      ((histLoW pooled n).2 *
        ((binCounts (histLoW pooled n).1 (histLoW pooled n).2 n xs).sum : ℚ)))

/-- The renormalisation `distr = histo[0] / np.sum(histo[0])` of lines 50/52. -/
def pyNormalize (l : List ℚ) : List ℚ := l.map (fun v => v / l.sum)

/-- `distr_a` of the loop body of `relative_entropy_analysis` (lines 49-50):
ensemble A's histogram on the bin edges of the pooled sample `data_both`,
renormalised to unit sum. -/
def reDistrA (data_a data_g : List ℚ) : List ℚ :=
  pyNormalize (histDensity (data_a ++ data_g) data_a 10)

/-- `distr_g` of the loop body of `relative_entropy_analysis` (lines 51-52):
ensemble G's histogram on the same pooled bin edges, renormalised. -/
def reDistrG (data_a data_g : List ℚ) : List ℚ :=
  pyNormalize (histDensity (data_a ++ data_g) data_g 10)

section HistogramLemmas

theorem histRange_of_eq {xs : List ℚ} (h : listMin xs = listMax xs) :
    histRange xs = (listMax xs - 1/2, listMax xs + 1/2) := by
  unfold histRange
  rw [h]
  simp

theorem histRange_of_ne {xs : List ℚ} (h : listMin xs ≠ listMax xs) :
    histRange xs = (listMin xs, listMax xs) := by
  unfold histRange
  simp [h]

theorem histLoW_w_pos {xs : List ℚ} {n : ℕ} (hxs : xs ≠ []) (hn : 0 < n) :
    0 < (histLoW xs n).2 := by
  have hn' : (0 : ℚ) < n := by exact_mod_cast hn
  unfold histLoW
  by_cases h : listMin xs = listMax xs
  · rw [histRange_of_eq h]
    have harith : (listMax xs + 1/2) - (listMax xs - 1/2) = 1 := by ring
    simp only [harith]
    positivity
  · rw [histRange_of_ne h]
    have hlt : listMin xs < listMax xs := lt_of_le_of_ne (listMin_le_listMax hxs) h
    have : (0 : ℚ) < listMax xs - listMin xs := by linarith
    positivity

theorem histLoW_mem_range {xs : List ℚ} {n : ℕ} {x : ℚ}
    (hn : 0 < n) (hx : x ∈ xs) :
    (histLoW xs n).1 ≤ x ∧ x ≤ (histLoW xs n).1 + n * (histLoW xs n).2 := by
  have hn' : (n : ℚ) ≠ 0 := by exact_mod_cast hn.ne'
  have hmin : listMin xs ≤ x := listMin_le_of_mem hx
  have hmax : x ≤ listMax xs := le_listMax_of_mem hx
  unfold histLoW
  by_cases h : listMin xs = listMax xs
  · rw [histRange_of_eq h]
    constructor
    · simp only
      linarith
    · simp only
      have heq : (n : ℚ) * ((listMax xs + 1/2 - (listMax xs - 1/2)) / n) = 1 := by
        field_simp
      rw [heq]
      linarith
  · rw [histRange_of_ne h]
    constructor
    · exact hmin
    · simp only
      have heq : (n : ℚ) * ((listMax xs - listMin xs) / n) = listMax xs - listMin xs := by
        field_simp
      rw [heq]
      linarith

theorem inBin_iff (lo w : ℚ) (n j : ℕ) (x : ℚ) :
    inBin lo w n j x = true ↔
      (lo + j * w ≤ x ∧
        (if j + 1 = n then x ≤ lo + (j + 1) * w else x < lo + (j + 1) * w)) := by
  by_cases h : j + 1 = n <;> simp [inBin, h]

theorem exists_bin {lo w : ℚ} {n : ℕ} (hw : 0 < w) (hn : 0 < n) {x : ℚ}
    (h1 : lo ≤ x) (h2 : x ≤ lo + n * w) :
    ∃ j < n, inBin lo w n j x = true := by
  set t : ℚ := (x - lo) / w with ht
  have ht0 : 0 ≤ t := div_nonneg (by linarith) hw.le
  have hfl0 : (0 : ℤ) ≤ ⌊t⌋ := by
    rw [Int.le_floor]; exact_mod_cast ht0
  by_cases hbig : (n : ℤ) - 1 ≤ ⌊t⌋
  · -- top bin j = n - 1
    refine ⟨n - 1, Nat.sub_lt hn one_pos, ?_⟩
    rw [inBin_iff]
    have hsucc : (n - 1) + 1 = n := Nat.succ_pred_eq_of_pos hn
    have hcast : ((n - 1 : ℕ) : ℚ) = (n : ℚ) - 1 := by
      have h1 : (1 : ℕ) ≤ n := hn
      push_cast [Nat.cast_sub h1]
      ring
    constructor
    · -- lo + (n-1) * w ≤ x
      have hle : ((n : ℚ) - 1) ≤ t := by
        calc ((n : ℚ) - 1) = (((n : ℤ) - 1 : ℤ) : ℚ) := by push_cast; ring
        _ ≤ (⌊t⌋ : ℚ) := by exact_mod_cast hbig
        _ ≤ t := Int.floor_le t
      have hmul := (le_div_iff₀ hw).mp hle
      rw [hcast]
      linarith
    · rw [if_pos hsucc]
      have harg : lo + ((n - 1 : ℕ) + 1 : ℚ) * w = lo + n * w := by
        rw [hcast]; ring
      rw [harg]
      exact h2
  · -- interior bin j = ⌊t⌋
    push_neg at hbig
    refine ⟨⌊t⌋.toNat, ?_, ?_⟩
    · omega
    · rw [inBin_iff]
      have hjq : ((⌊t⌋.toNat : ℕ) : ℚ) = ((⌊t⌋ : ℤ) : ℚ) := by
        exact_mod_cast Int.toNat_of_nonneg hfl0
      have hne : ⌊t⌋.toNat + 1 ≠ n := by omega
      constructor
      · have hle : ((⌊t⌋ : ℚ)) ≤ t := Int.floor_le t
        have hmul := (le_div_iff₀ hw).mp hle
        rw [hjq]
        linarith
      · rw [if_neg hne]
        have hlt : t < (⌊t⌋ : ℚ) + 1 := Int.lt_floor_add_one t
        have hmul := (div_lt_iff₀ hw).mp hlt
        rw [hjq]
        linarith

theorem binCounts_sum_pos {lo w : ℚ} {n : ℕ} {xs : List ℚ} {x : ℚ}
    (hw : 0 < w) (hn : 0 < n) (hx : x ∈ xs)
    (h1 : lo ≤ x) (h2 : x ≤ lo + n * w) :
    0 < (binCounts lo w n xs).sum := by
  obtain ⟨j, hj, hbin⟩ := exists_bin hw hn h1 h2
  have hcnt : 0 < (xs.filter (fun y => inBin lo w n j y)).length :=
    List.length_pos.mpr (List.ne_nil_of_mem (List.mem_filter.mpr ⟨hx, hbin⟩))
  have hmem : (xs.filter (fun y => inBin lo w n j y)).length ∈ binCounts lo w n xs := by
    unfold binCounts
    exact List.mem_map.mpr ⟨j, List.mem_range.mpr hj, rfl⟩
  have := List.single_le_sum (l := binCounts lo w n xs) (fun c _ => Nat.zero_le c) _ hmem
  omega

theorem sum_map_div (l : List ℚ) (d : ℚ) :
    (l.map (fun v => v / d)).sum = l.sum / d := by
  induction l with
  | nil => simp
  | cons x xs ih => simp [ih, add_div]

theorem sum_map_cast_div (l : List ℕ) (d : ℚ) :
    (l.map (fun c : ℕ => (c : ℚ) / d)).sum = (l.sum : ℚ) / d := by
  induction l with
  | nil => simp
  | cons x xs ih => simp [ih, add_div]

theorem histDensity_sum {pooled xs : List ℚ} {n : ℕ}
    (hS : 0 < (binCounts (histLoW pooled n).1 (histLoW pooled n).2 n xs).sum)
    (hw : 0 < (histLoW pooled n).2) :
    (histDensity pooled xs n).sum = 1 / (histLoW pooled n).2 := by
  unfold histDensity
  rw [sum_map_cast_div]
  have hS' : ((binCounts (histLoW pooled n).1 (histLoW pooled n).2 n xs).sum : ℚ) ≠ 0 := by
    exact_mod_cast hS.ne'
  rw [mul_comm, div_mul_eq_div_div, div_self hS']

theorem pyNormalize_sum {l : List ℚ} (h : l.sum ≠ 0) : (pyNormalize l).sum = 1 := by
  unfold pyNormalize
  rw [sum_map_div]
  exact div_self h

theorem reDistr_sum_one {data_a data_g : List ℚ} (ha : data_a ≠ []) (hg : data_g ≠ []) :
    (reDistrA data_a data_g).sum = 1 ∧ (reDistrG data_a data_g).sum = 1 := by
  have hpool : data_a ++ data_g ≠ [] := by
    simp [ha]
  have hw : 0 < (histLoW (data_a ++ data_g) 10).2 := histLoW_w_pos hpool (by norm_num)
  have hn10 : (0 : ℕ) < 10 := by norm_num
  have key : ∀ xs : List ℚ, xs ≠ [] → (∀ y ∈ xs, y ∈ data_a ++ data_g) →
      (pyNormalize (histDensity (data_a ++ data_g) xs 10)).sum = 1 := by
    intro xs hxs hsub
    obtain ⟨x, hx⟩ := List.exists_mem_of_ne_nil xs hxs
    have hxr := @histLoW_mem_range (data_a ++ data_g) 10 x hn10 (hsub x hx)
    have hS : 0 < (binCounts (histLoW (data_a ++ data_g) 10).1
        (histLoW (data_a ++ data_g) 10).2 10 xs).sum :=
      binCounts_sum_pos hw hn10 hx hxr.1 (by exact_mod_cast hxr.2)
    have hsum := histDensity_sum hS hw
    apply pyNormalize_sum
    rw [hsum]
    exact one_div_ne_zero hw.ne'
  constructor
  · exact key data_a ha (fun y hy => List.mem_append.mpr (Or.inl hy))
  · exact key data_g hg (fun y hy => List.mem_append.mpr (Or.inr hy))

end HistogramLemmas

/-! Embeddings of the three feature-difference routines of analysis.py.
Each routine receives two PyEMMA featurizers and two feature-major data
arrays (`all_data_x[i]` is the per-frame sample of feature `i`). -/

/-- A PyEMMA featurizer as seen by these routines: both `describe()` (used by
the asserts of lines 21/75/114) and `active_features[0].describe()` (used to
extract `data_names` on lines 25/79/118) are opaque name lists produced by the
external feature-extraction collaborator. -/
structure Featurizer where
  describe : List String
  active0_describe : List String

/-- Every local name that is assigned anywhere in the body of
`relative_entropy_analysis` (parameters of line 15 and the assignment targets
of lines 25-52; the subscript stores of lines 40/55/56/59 mutate existing
arrays and bind no new name). -/
def reAssignedNames : List String :=
  ["features_a", "features_g", "all_data_a", "all_data_g", "bin_width", "verbose",
   "data_names", "data_jsdist", "data_kld_ag", "data_kld_ga", "data_avg",
   "i", "data_a", "data_g", "data_both", "bins_min", "bins_max", "bins",
   "histo_both", "histo_a", "distr_a", "histo_g", "distr_g"]

/-- The local names the diagnostic print of lines 62-63 reads, in evaluation
order (`print` and `len` are builtins and the format strings are literals). -/
def rePrintLocalRefs : List String :=
  ["i", "all_data_a", "data_names", "data_avg", "js_dist", "rel_ent_ag", "rel_ent_ga"]

/-- Whether every local name the print of lines 62-63 reads is actually bound
by the function; the Python call raises `NameError` at the print otherwise. -/
def rePrintScopeOk : Bool := rePrintLocalRefs.all (fun s => reAssignedNames.contains s)

/-- The loop of `relative_entropy_analysis` (lines 33-63), as explicit state
passing over the four result arrays.  `klDiv` models
`np.sum(sp.special.kl_div(p, q))` and `jsd` models
`scipy.spatial.distance.jensenshannon(p, q, base=2.0)`; both are external
SciPy computations and receive exactly the distributions the source passes
them.  The verbose print re-reads `data_names[i]` (IndexError when out of
range) and then the unassigned `js_dist`, `rel_ent_ag`, `rel_ent_ga`
(NameError, modelled through the `rePrintScopeOk` name-scope check). -/
def reLoop (klDiv jsd : List ℚ → List ℚ → ℚ) (data_names : List String)
    (all_data_a all_data_g : List (List ℚ)) (verbose : Bool) :
    List ℕ → List ℚ × List ℚ × List ℚ × List ℚ →
    Except String (List String × List ℚ × List ℚ × List ℚ)
  | [], (_avg, jsdist, kld_ag, kld_ga) => .ok (data_names, jsdist, kld_ag, kld_ga)
  | i :: rest, (avg, jsdist, kld_ag, kld_ga) =>
    if i < all_data_g.length then
      let data_a := all_data_a.getD i []
      let data_g := all_data_g.getD i []
      let data_both := data_a ++ data_g
      if i < avg.length ∧ i < jsdist.length ∧ i < kld_ag.length ∧ i < kld_ga.length then
        let avg1 := avg.set i (pymean data_both)
        let distr_a := reDistrA data_a data_g
        let distr_g := reDistrG data_a data_g
        let kld_ag1 := kld_ag.set i (klDiv distr_a distr_g)
        let kld_ga1 := kld_ga.set i (klDiv distr_g distr_a)
        let jsdist1 := jsdist.set i (jsd distr_a distr_g)
        if verbose then
          if i < data_names.length then
            if rePrintScopeOk then
              reLoop klDiv jsd data_names all_data_a all_data_g verbose rest
                (avg1, jsdist1, kld_ag1, kld_ga1)
            else .error "NameError: name js_dist is not defined"
          else .error "IndexError"
        else
          reLoop klDiv jsd data_names all_data_a all_data_g verbose rest
            (avg1, jsdist1, kld_ag1, kld_ga1)
      else .error "IndexError"
    else .error "IndexError"

/-- Embedding of `relative_entropy_analysis` (analysis.py lines 15-65).
`bin_width` only feeds the `bins` array of line 45, which the histogram calls
never use (they bin on `histo_both[1]`); it is kept for signature fidelity. -/
def relative_entropy_analysis (klDiv jsd : List ℚ → List ℚ → ℚ)
    (features_a features_g : Featurizer)
    (all_data_a all_data_g : List (List ℚ)) (bin_width : ℚ) (verbose : Bool) :
    Except String (List String × List ℚ × List ℚ × List ℚ) :=
  if features_a.describe = features_g.describe then
    if all_data_a.length = all_data_g.length then
      let data_names := features_a.active0_describe
      let zeros := List.replicate data_names.length (0 : ℚ)
      reLoop klDiv jsd data_names all_data_a all_data_g verbose
        (List.range all_data_a.length) (zeros, zeros, zeros, zeros)
    else .error "AssertionError"
  else .error "AssertionError"

/-- The loop of `kolmogorov_smirnov_analysis` (lines 86-102).  `ks` models the
external `sp.stats.ks_2samp`, returning (statistic, pvalue). -/
def ksLoop (ks : List ℚ → List ℚ → ℚ × ℚ) (data_names : List String)
    (all_data_a all_data_g : List (List ℚ)) (verbose : Bool) :
    List ℕ → List ℚ × List ℚ × List ℚ →
    Except String (List String × List ℚ × List ℚ)
  | [], (_avg, kss, ksp) => .ok (data_names, kss, ksp)
  | i :: rest, (avg, kss, ksp) =>
    if i < all_data_g.length then
      let data_a := all_data_a.getD i []
      let data_g := all_data_g.getD i []
      let kres := ks data_a data_g
      if i < kss.length ∧ i < ksp.length ∧ i < avg.length then
        let kss1 := kss.set i kres.1
        let ksp1 := ksp.set i kres.2
        let avg1 := avg.set i (pymean (data_a ++ data_g))
        if verbose then
          if i < data_names.length then
            ksLoop ks data_names all_data_a all_data_g verbose rest (avg1, kss1, ksp1)
          else .error "IndexError"
        else
          ksLoop ks data_names all_data_a all_data_g verbose rest (avg1, kss1, ksp1)
      else .error "IndexError"
    else .error "IndexError"

/-- Embedding of `kolmogorov_smirnov_analysis` (analysis.py lines 69-104). -/
def kolmogorov_smirnov_analysis (ks : List ℚ → List ℚ → ℚ × ℚ)
    (features_a features_g : Featurizer)
    (all_data_a all_data_g : List (List ℚ)) (bin_width : ℚ) (verbose : Bool) :
    Except String (List String × List ℚ × List ℚ) :=
  if features_a.describe = features_g.describe then
    if all_data_a.length = all_data_g.length then
      let data_names := features_a.active0_describe
      let zeros := List.replicate data_names.length (0 : ℚ)
      ksLoop ks data_names all_data_a all_data_g verbose
        (List.range all_data_a.length) (zeros, zeros, zeros)
    else .error "AssertionError"
  else .error "AssertionError"

/-- The loop of `mean_difference_analysis` (lines 124-143). -/
def mdLoop (data_names : List String) (all_data_a all_data_g : List (List ℚ))
    (verbose : Bool) :
    List ℕ → List ℚ × List ℚ → Except String (List String × List ℚ × List ℚ)
  | [], (avg, diff) => .ok (data_names, avg, diff)
  | i :: rest, (avg, diff) =>
    if i < all_data_g.length then
      let data_a := all_data_a.getD i []
      let data_g := all_data_g.getD i []
      let mean_a := pymean data_a
      let mean_g := pymean data_g
      let diff_ag := mean_a - mean_g
      let mean_ag := (1/2 : ℚ) * (mean_a + mean_g)
      if i < avg.length ∧ i < diff.length then
        let avg1 := avg.set i mean_ag
        let diff1 := diff.set i diff_ag
        if verbose then
          if i < data_names.length then
            mdLoop data_names all_data_a all_data_g verbose rest (avg1, diff1)
          else .error "IndexError"
        else
          mdLoop data_names all_data_a all_data_g verbose rest (avg1, diff1)
      else .error "IndexError"
    else .error "IndexError"

/-- Embedding of `mean_difference_analysis` (analysis.py lines 108-145). -/
def mean_difference_analysis (features_a features_g : Featurizer)
    (all_data_a all_data_g : List (List ℚ)) (verbose : Bool) :
    Except String (List String × List ℚ × List ℚ) :=
  if features_a.describe = features_g.describe then
    if all_data_a.length = all_data_g.length then
      let data_names := features_a.active0_describe
      let zeros := List.replicate data_names.length (0 : ℚ)
      mdLoop data_names all_data_a all_data_g verbose
        (List.range all_data_a.length) (zeros, zeros)
    else .error "AssertionError"
  else .error "AssertionError"

section SetGetLemmas

theorem getD_set_self {l : List ℚ} {i : ℕ} (v d : ℚ) (h : i < l.length) :
    (l.set i v).getD i d = v := by
  rw [List.getD_eq_getElem _ _ (by simpa using h), List.getElem_set, if_pos rfl]

theorem getD_set_ne {l : List ℚ} {i j : ℕ} (v d : ℚ) (h : i ≠ j) :
    (l.set i v).getD j d = l.getD j d := by
  by_cases hj : j < l.length
  · rw [List.getD_eq_getElem _ _ (by simpa using hj), List.getD_eq_getElem _ _ hj,
      List.getElem_set, if_neg h]
  · rw [List.getD_eq_default _ _ (by simpa using Nat.le_of_not_lt hj),
      List.getD_eq_default _ _ (Nat.le_of_not_lt hj)]

end SetGetLemmas

/-- Invariant of the `mean_difference_analysis` loop: processing the index
list `idxs` succeeds whenever every index is in bounds, and afterwards the
two arrays hold, at every processed index `j`, the midpoint mean
`0.5*(mean_a + mean_g)` and the difference `mean_a - mean_g`. -/
theorem mdLoop_ok (data_names : List String) (da dg : List (List ℚ)) (verbose : Bool)
    (idxs : List ℕ) :
    ∀ (avg diff : List ℚ),
      (∀ i ∈ idxs, i < dg.length ∧ i < avg.length ∧ i < diff.length ∧ i < data_names.length) →
      ∃ A D : List ℚ,
        mdLoop data_names da dg verbose idxs (avg, diff) = .ok (data_names, A, D) ∧
        (∀ j : ℕ, A.getD j 0 =
          if j ∈ idxs then (1/2 : ℚ) * (pymean (da.getD j []) + pymean (dg.getD j []))
          else avg.getD j 0) ∧
        (∀ j : ℕ, D.getD j 0 =
          if j ∈ idxs then pymean (da.getD j []) - pymean (dg.getD j [])
          else diff.getD j 0) := by
  induction idxs with
  | nil =>
    intro avg diff _
    exact ⟨avg, diff, by simp [mdLoop], by simp, by simp⟩
  | cons i rest ih =>
    intro avg diff h
    obtain ⟨hig, hia, hid, hin⟩ := h i (List.mem_cons_self i rest)
    set va : ℚ := (1/2 : ℚ) * (pymean (da.getD i []) + pymean (dg.getD i [])) with hva
    set vd : ℚ := pymean (da.getD i []) - pymean (dg.getD i []) with hvd
    have hrest : ∀ p ∈ rest, p < dg.length ∧ p < (avg.set i va).length ∧
        p < (diff.set i vd).length ∧ p < data_names.length := by
      intro p hp
      have := h p (List.mem_cons_of_mem i hp)
      simpa [List.length_set] using this
    have step : mdLoop data_names da dg verbose (i :: rest) (avg, diff)
        = mdLoop data_names da dg verbose rest (avg.set i va, diff.set i vd) := by
      simp only [mdLoop]
      rw [if_pos hig, if_pos ⟨hia, hid⟩]
      cases verbose
      · simp [hva, hvd]
      · rw [if_pos rfl, if_pos hin]
    obtain ⟨A, D, hok, hA, hD⟩ := ih (avg.set i va) (diff.set i vd) hrest
    refine ⟨A, D, by rw [step]; exact hok, ?_, ?_⟩
    · intro j
      rw [hA j]
      by_cases hj : j ∈ rest
      · rw [if_pos hj, if_pos (List.mem_cons_of_mem i hj)]
      · by_cases hji : j = i
        · subst hji
          rw [if_neg hj, if_pos (List.mem_cons_self j rest), getD_set_self va 0 hia]
        · rw [if_neg hj, getD_set_ne va 0 (fun he => hji he.symm)]
          rw [if_neg (by simp [List.mem_cons, hji, hj])]
    · intro j
      rw [hD j]
      by_cases hj : j ∈ rest
      · rw [if_pos hj, if_pos (List.mem_cons_of_mem i hj)]
      · by_cases hji : j = i
        · subst hji
          rw [if_neg hj, if_pos (List.mem_cons_self j rest), getD_set_self vd 0 hid]
        · rw [if_neg hj, getD_set_ne vd 0 (fun he => hji he.symm)]
          rw [if_neg (by simp [List.mem_cons, hji, hj])]

/-! Claim theorems for the feature-difference routines. -/

/-- C1: for every pair of valid input data sets with at least one feature,
`relative_entropy_analysis` with `verbose = True` (its default) reaches the
diagnostic print of lines 62-63, which reads the names `js_dist`,
`rel_ent_ag` and `rel_ent_ga`; none of these is assigned anywhere in the
function, so the call fails with an undefined-name error in the first loop
iteration instead of returning the four result arrays. -/
theorem relative_entropy_analysis_hits_nameerror
    (klDiv jsd : List ℚ → List ℚ → ℚ) (features_a features_g : Featurizer)
    (all_data_a all_data_g : List (List ℚ)) (bin_width : ℚ)
    (hf : features_a.describe = features_g.describe)
    (hl : all_data_a.length = all_data_g.length)
    (hnames : features_a.active0_describe.length = all_data_a.length)
    (hn : 0 < all_data_a.length) :
    ("js_dist" ∈ rePrintLocalRefs ∧ "js_dist" ∉ reAssignedNames) ∧
    ("rel_ent_ag" ∈ rePrintLocalRefs ∧ "rel_ent_ag" ∉ reAssignedNames) ∧
    ("rel_ent_ga" ∈ rePrintLocalRefs ∧ "rel_ent_ga" ∉ reAssignedNames) ∧
    relative_entropy_analysis klDiv jsd features_a features_g
        all_data_a all_data_g bin_width true
      = .error "NameError: name js_dist is not defined" := by
  refine ⟨by decide, by decide, by decide, ?_⟩
  have h1 : (0 : ℕ) < all_data_g.length := hl ▸ hn
  have hz : 0 < features_a.active0_describe.length := by omega
  unfold relative_entropy_analysis
  rw [if_pos hf, if_pos hl]
  obtain ⟨k, hk⟩ : ∃ k, all_data_a.length = k + 1 := ⟨all_data_a.length - 1, by omega⟩
  rw [hk, List.range_succ_eq_map]
  simp only [reLoop, List.length_replicate]
  rw [if_pos h1, if_pos ⟨hz, hz, hz, hz⟩, if_pos trivial, if_pos hz,
    if_neg (by rw [show rePrintScopeOk = false from by decide]; exact Bool.false_ne_true)]

/-- Witness for C1 at a concrete one-feature input. -/
theorem relative_entropy_analysis_hits_nameerror_witness :
    ("js_dist" ∈ rePrintLocalRefs ∧ "js_dist" ∉ reAssignedNames) ∧
    ("rel_ent_ag" ∈ rePrintLocalRefs ∧ "rel_ent_ag" ∉ reAssignedNames) ∧
    ("rel_ent_ga" ∈ rePrintLocalRefs ∧ "rel_ent_ga" ∉ reAssignedNames) ∧
    relative_entropy_analysis (fun _ _ => 0) (fun _ _ => 0)
        ⟨["CA torsion"], ["CA torsion"]⟩ ⟨["CA torsion"], ["CA torsion"]⟩
        [[0, 1]] [[1, 2]] (1/1000) true
      = .error "NameError: name js_dist is not defined" :=
  relative_entropy_analysis_hits_nameerror (fun _ _ => 0) (fun _ _ => 0)
    ⟨["CA torsion"], ["CA torsion"]⟩ ⟨["CA torsion"], ["CA torsion"]⟩
    [[0, 1]] [[1, 2]] (1/1000) rfl rfl rfl (by decide)

/-- C2: in the loop body of `relative_entropy_analysis`, for every feature
index `i` both per-ensemble histograms are binned on the identical edge grid
derived from the pooled sample `data_both = data_a ++ data_g`
(`histo_both[1]`, modelled by `histLoW`/`histEdges` of the pooled list), and
each binned distribution is renormalized to unit sum (`pyNormalize`) before
any KL or Jensen-Shannon value is computed from it. -/
theorem relative_entropy_shared_bins_normalized
    (all_data_a all_data_g : List (List ℚ)) (i : ℕ)
    (ha : all_data_a.getD i [] ≠ []) (hg : all_data_g.getD i [] ≠ []) :
    reDistrA (all_data_a.getD i []) (all_data_g.getD i [])
        = pyNormalize (histDensity (all_data_a.getD i [] ++ all_data_g.getD i [])
            (all_data_a.getD i []) 10)
    ∧ reDistrG (all_data_a.getD i []) (all_data_g.getD i [])
        = pyNormalize (histDensity (all_data_a.getD i [] ++ all_data_g.getD i [])
            (all_data_g.getD i []) 10)
    ∧ histEdges (all_data_a.getD i [] ++ all_data_g.getD i []) 10
        = (List.range 11).map (fun j =>
            (histLoW (all_data_a.getD i [] ++ all_data_g.getD i []) 10).1 +
              j * (histLoW (all_data_a.getD i [] ++ all_data_g.getD i []) 10).2)
    ∧ (reDistrA (all_data_a.getD i []) (all_data_g.getD i [])).sum = 1
    ∧ (reDistrG (all_data_a.getD i []) (all_data_g.getD i [])).sum = 1 := by
  obtain ⟨h1, h2⟩ := reDistr_sum_one ha hg
  exact ⟨rfl, rfl, rfl, h1, h2⟩

/-- Witness for C2 at a concrete feature sample. -/
theorem relative_entropy_shared_bins_normalized_witness :
    (reDistrA ([[0, 1]].getD 0 []) ([[1, 2]].getD 0 [])).sum = 1
    ∧ (reDistrG ([[0, 1]].getD 0 []) ([[1, 2]].getD 0 [])).sum = 1 := by
  obtain ⟨_, _, _, h4, h5⟩ :=
    relative_entropy_shared_bins_normalized [[0, 1]] [[1, 2]] 0 (by decide) (by decide)
  exact ⟨h4, h5⟩

/-- C5: when the two featurizers' name lists differ, or when the first array
dimension the asserts require to be equal differs, each of
`relative_entropy_analysis`, `kolmogorov_smirnov_analysis` and
`mean_difference_analysis` fails at its leading asserts (lines 21-22, 75-76,
114-115), before any per-feature statistic is computed. -/
theorem analysis_asserts_fail_on_mismatch
    (klDiv jsd : List ℚ → List ℚ → ℚ) (ks : List ℚ → List ℚ → ℚ × ℚ)
    (features_a features_g : Featurizer)
    (all_data_a all_data_g : List (List ℚ)) (bin_width : ℚ) (verbose : Bool)
    (h : features_a.describe ≠ features_g.describe ∨
         all_data_a.length ≠ all_data_g.length) :
    (∃ e, relative_entropy_analysis klDiv jsd features_a features_g
        all_data_a all_data_g bin_width verbose = .error e) ∧
    (∃ e, kolmogorov_smirnov_analysis ks features_a features_g
        all_data_a all_data_g bin_width verbose = .error e) ∧
    (∃ e, mean_difference_analysis features_a features_g
        all_data_a all_data_g verbose = .error e) := by
  rcases h with h | h
  · refine ⟨⟨"AssertionError", ?_⟩, ⟨"AssertionError", ?_⟩, ⟨"AssertionError", ?_⟩⟩ <;>
      · first
        | (unfold relative_entropy_analysis; rw [if_neg h])
        | (unfold kolmogorov_smirnov_analysis; rw [if_neg h])
        | (unfold mean_difference_analysis; rw [if_neg h])
  · by_cases hd : features_a.describe = features_g.describe
    · refine ⟨⟨"AssertionError", ?_⟩, ⟨"AssertionError", ?_⟩, ⟨"AssertionError", ?_⟩⟩
      · unfold relative_entropy_analysis; rw [if_pos hd, if_neg h]
      · unfold kolmogorov_smirnov_analysis; rw [if_pos hd, if_neg h]
      · unfold mean_difference_analysis; rw [if_pos hd, if_neg h]
    · refine ⟨⟨"AssertionError", ?_⟩, ⟨"AssertionError", ?_⟩, ⟨"AssertionError", ?_⟩⟩
      · unfold relative_entropy_analysis; rw [if_neg hd]
      · unfold kolmogorov_smirnov_analysis; rw [if_neg hd]
      · unfold mean_difference_analysis; rw [if_neg hd]

/-- Witness for C5: feature name lists `["phi 1"]` and `["psi 2"]` differ. -/
theorem analysis_asserts_fail_on_mismatch_witness :
    (∃ e, relative_entropy_analysis (fun _ _ => 0) (fun _ _ => 0)
        ⟨["phi 1"], ["phi 1"]⟩ ⟨["psi 2"], ["psi 2"]⟩ [[0]] [[1]] (1/1000) true = .error e) ∧
    (∃ e, kolmogorov_smirnov_analysis (fun _ _ => (0, 0))
        ⟨["phi 1"], ["phi 1"]⟩ ⟨["psi 2"], ["psi 2"]⟩ [[0]] [[1]] (1/1000) true = .error e) ∧
    (∃ e, mean_difference_analysis
        ⟨["phi 1"], ["phi 1"]⟩ ⟨["psi 2"], ["psi 2"]⟩ [[0]] [[1]] true = .error e) :=
  analysis_asserts_fail_on_mismatch (fun _ _ => 0) (fun _ _ => 0) (fun _ _ => (0, 0))
    ⟨["phi 1"], ["phi 1"]⟩ ⟨["psi 2"], ["psi 2"]⟩ [[0]] [[1]] (1/1000) true
    (Or.inl (by decide))

/-- C7: for every feature index `i`, `mean_difference_analysis` reports the
difference statistic `mean(A_i) - mean(B_i)` (first input minus second) and
the average value `0.5 * (mean(A_i) + mean(B_i))`. -/
theorem mean_difference_analysis_spec
    (features_a features_g : Featurizer)
    (all_data_a all_data_g : List (List ℚ)) (verbose : Bool) (i : ℕ)
    (hf : features_a.describe = features_g.describe)
    (hl : all_data_a.length = all_data_g.length)
    (hnames : features_a.active0_describe.length = all_data_a.length)
    (hi : i < all_data_a.length) :
    ∃ A D : List ℚ,
      mean_difference_analysis features_a features_g all_data_a all_data_g verbose
        = .ok (features_a.active0_describe, A, D) ∧
      A.getD i 0 = (1/2 : ℚ) * (pymean (all_data_a.getD i []) + pymean (all_data_g.getD i []))
      ∧ D.getD i 0 = pymean (all_data_a.getD i []) - pymean (all_data_g.getD i []) := by
  have hcond : ∀ p ∈ List.range all_data_a.length, p < all_data_g.length ∧
      p < (List.replicate features_a.active0_describe.length (0 : ℚ)).length ∧
      p < (List.replicate features_a.active0_describe.length (0 : ℚ)).length ∧
      p < features_a.active0_describe.length := by
    intro p hp
    have hp' := List.mem_range.mp hp
    simp only [List.length_replicate]
    omega
  obtain ⟨A, D, hok, hA, hD⟩ := mdLoop_ok features_a.active0_describe
    all_data_a all_data_g verbose (List.range all_data_a.length)
    (List.replicate features_a.active0_describe.length (0 : ℚ))
    (List.replicate features_a.active0_describe.length (0 : ℚ)) hcond
  refine ⟨A, D, ?_, ?_, ?_⟩
  · unfold mean_difference_analysis
    rw [if_pos hf, if_pos hl]
    exact hok
  · rw [hA i, if_pos (List.mem_range.mpr hi)]
  · rw [hD i, if_pos (List.mem_range.mpr hi)]

/-- Witness for C7: `A = [[0,0],[0,0]]`, `B = [[1,1],[1,1]]` gives reported
mean-difference `-1` and average `1/2` for feature 0. -/
theorem mean_difference_analysis_spec_witness :
    ∃ A D : List ℚ,
      mean_difference_analysis ⟨["f0", "f1"], ["f0", "f1"]⟩ ⟨["f0", "f1"], ["f0", "f1"]⟩
          [[0, 0], [0, 0]] [[1, 1], [1, 1]] true
        = .ok (["f0", "f1"], A, D) ∧
      A.getD 0 0 = 1/2 ∧ D.getD 0 0 = -1 := by
  obtain ⟨A, D, hok, hA, hD⟩ := mean_difference_analysis_spec
    ⟨["f0", "f1"], ["f0", "f1"]⟩ ⟨["f0", "f1"], ["f0", "f1"]⟩
    [[0, 0], [0, 0]] [[1, 1], [1, 1]] true 0 rfl rfl rfl (by decide)
  refine ⟨A, D, hok, ?_, ?_⟩
  · rw [hA]; norm_num [pymean]
  · rw [hD]; norm_num [pymean]

/-! Feature sorting (analysis.py `sort_features`) and the PCA projection and
trajectory-sorting routines (pensa/pca.py). -/

/-- The ascending index permutation `np.argsort(l)`.  NumPy's argsort returns
a permutation of `0..len-1` ordering the values ascending; mergeSort on the
index range with the value comparison realizes exactly that. -/
def argsort (l : List ℚ) : List ℕ :=
  (List.range l.length).mergeSort (fun i j => decide (l.getD i 0 ≤ l.getD j 0))

/-- NumPy fancy indexing `l[idx]` for an index array. -/
def applyIdx (l : List ℚ) (idx : List ℕ) : List ℚ := idx.map (fun i => l.getD i 0)

/-- Embedding of `sort_features` (analysis.py lines 159-190): the indices are
sorted by value descending (`np.argsort(sortby)[::-1]`), then one
(name, value) pair is emitted per index (`np.array([sn, sv]).T`). -/
def sort_features (names : List String) (sortby : List ℚ) : List (String × ℚ) :=
  let sort_id := (argsort sortby).reverse
  sort_id.map (fun i => (names.getD i "", sortby.getD i 0))

/-- Embedding of `project_on_pc` (pca.py lines 58-78) with a precomputed PCA:
the external PyEMMA PCA object is represented by its eigenvector matrix
(rows = features, columns = components), and each frame is sent to the dot
product of its feature vector with eigenvector column `ev_idx`. -/
def project_on_pc (data : List (List ℚ)) (eigenvectors : List (List ℚ))
    (ev_idx : ℕ) : List ℚ :=
  data.map (fun frame => dot frame (column eigenvectors ev_idx))

/-- Per-component body of the loop of `sort_traj_along_pc` (pca.py lines
110-123): projection, `sort_idx = np.argsort(proj)`, the sorted projection
`proj_sort = proj[sort_idx]` and the sorted original frame indices
`oidx_sort = oidx[sort_idx]` with `oidx = np.arange(len(data)) + start_frame`.
The XTC frame writing is external I/O consuming `oidx_sort`. -/
def sort_traj_along_pc_axis (data : List (List ℚ)) (eigenvectors : List (List ℚ))
    (start_frame : ℕ) (evi : ℕ) : List ℚ × List ℕ :=
  let oidx := (List.range data.length).map (fun j => j + start_frame)
  let proj := project_on_pc data eigenvectors evi
  let sort_idx := argsort proj
  (applyIdx proj sort_idx, sort_idx.map (fun i => oidx.getD i 0))

/-- Per-component body of the loop of `sort_trajs_along_common_pc` (pca.py
lines 171-189): the two ensembles are concatenated, tagged (`cond`) and
indexed (`oidx`), projected, and everything is sorted along the projection. -/
def sort_trajs_along_common_pc_axis (data_g data_a : List (List ℚ))
    (eigenvectors : List (List ℚ)) (start_frame : ℕ) (evi : ℕ) :
    List ℚ × List ℚ × List ℕ :=
  let data := data_g ++ data_a
  let cond := List.replicate data_g.length (1 : ℚ) ++ List.replicate data_a.length (0 : ℚ)
  let oidx := (List.range data_g.length).map (fun j => j + start_frame) ++
              (List.range data_a.length).map (fun j => j + start_frame)
  let proj := project_on_pc data eigenvectors evi
  let sort_idx := argsort proj
  (applyIdx proj sort_idx, applyIdx cond sort_idx, sort_idx.map (fun i => oidx.getD i 0))

section SortLemmas

theorem argsort_pairwise (l : List ℚ) :
    List.Pairwise (fun i j => l.getD i 0 ≤ l.getD j 0) (argsort l) := by
  have h := @List.sorted_mergeSort ℕ
    (fun i j : ℕ => decide (l.getD i 0 ≤ l.getD j 0))
    (fun a b c hab hbc => by
      simp only [decide_eq_true_eq] at *
      exact le_trans hab hbc)
    (fun a b => by
      simp only [Bool.or_eq_true, decide_eq_true_eq]
      exact le_total _ _)
    (List.range l.length)
  unfold argsort
  exact h.imp (fun hab => by simpa using hab)

theorem argsort_perm (l : List ℚ) : (argsort l).Perm (List.range l.length) :=
  List.mergeSort_perm (List.range l.length) _

theorem sorted_applyIdx_argsort (l : List ℚ) :
    List.Sorted (· ≤ ·) (applyIdx l (argsort l)) := by
  unfold applyIdx List.Sorted
  rw [List.pairwise_map]
  exact argsort_pairwise l

theorem map_range_getD_pair (names : List String) (sortby : List ℚ)
    (h : names.length = sortby.length) :
    (List.range sortby.length).map (fun i => (names.getD i "", sortby.getD i 0))
      = names.zip sortby := by
  induction names generalizing sortby with
  | nil =>
    cases sortby with
    | nil => simp
    | cons v vs => simp at h
  | cons nm nms ih =>
    cases sortby with
    | nil => simp at h
    | cons v vs =>
      have h' : nms.length = vs.length := by simpa using h
      simp only [List.length_cons]
      rw [List.range_succ_eq_map]
      simp only [List.map_cons, List.map_map, List.getD_cons_zero, List.zip_cons_cons]
      rw [← ih vs h']
      congr 1

end SortLemmas

/-! Claim theorems for sorting and projection. -/

/-- C8: in `sort_traj_along_pc` and `sort_trajs_along_common_pc`, the
per-frame projection is the dot product of the frame's feature vector with
the chosen eigenvector column, and the sorted sequence
`proj_sort = proj[sort_idx]` is monotonically non-decreasing for every input
matrix and axis index. -/
theorem projection_dot_and_sorted
    (data data_g data_a eigenvectors : List (List ℚ))
    (start_frame evi ti : ℕ) (hti : ti < data.length) :
    (project_on_pc data eigenvectors evi).getD ti 0
        = dot (data.getD ti []) (column eigenvectors evi)
    ∧ List.Sorted (· ≤ ·) (sort_traj_along_pc_axis data eigenvectors start_frame evi).1
    ∧ List.Sorted (· ≤ ·)
        (sort_trajs_along_common_pc_axis data_g data_a eigenvectors start_frame evi).1 := by
  refine ⟨?_, sorted_applyIdx_argsort _, sorted_applyIdx_argsort _⟩
  unfold project_on_pc
  rw [List.getD_eq_getElem _ _ (by simpa using hti), List.getElem_map,
    List.getD_eq_getElem _ _ hti]

/-- Witness for C8 at a concrete two-frame input. -/
theorem projection_dot_and_sorted_witness :
    (project_on_pc [[2], [1]] [[1]] 0).getD 0 0 = dot ([[2], [1]].getD 0 []) (column [[1]] 0)
    ∧ List.Sorted (· ≤ ·) (sort_traj_along_pc_axis [[2], [1]] [[1]] 0 0).1
    ∧ List.Sorted (· ≤ ·) (sort_trajs_along_common_pc_axis [[2], [1]] [[3], [0]] [[1]] 0 0).1 :=
  projection_dot_and_sorted [[2], [1]] [[2], [1]] [[3], [0]] [[1]] 0 0 0 (by decide)

/-- C9: for equal-length name and value arrays, `sort_features` returns
exactly one (name, value) pair per input entry — a permutation of the input
pairs, nothing dropped — arranged in descending (non-increasing) order of
value. -/
theorem sort_features_perm_descending (names : List String) (sortby : List ℚ)
    (h : names.length = sortby.length) :
    (sort_features names sortby).Perm (names.zip sortby)
    ∧ List.Sorted (fun p q : String × ℚ => q.2 ≤ p.2) (sort_features names sortby) := by
  constructor
  · have hperm : ((argsort sortby).reverse).Perm (List.range sortby.length) :=
      (List.reverse_perm (argsort sortby)).trans (argsort_perm sortby)
    have := hperm.map (fun i => (names.getD i "", sortby.getD i 0))
    rw [map_range_getD_pair names sortby h] at this
    exact this
  · unfold sort_features List.Sorted
    rw [List.pairwise_map, List.pairwise_reverse]
    exact (argsort_pairwise sortby).imp (fun hab => hab)

/-- Witness for C9 on a concrete (name, value) table. -/
theorem sort_features_perm_descending_witness :
    (sort_features ["a", "b", "c"] [1, 3, 2]).Perm
        (["a", "b", "c"].zip [1, 3, 2])
    ∧ List.Sorted (fun p q : String × ℚ => q.2 ≤ p.2)
        (sort_features ["a", "b", "c"] [1, 3, 2]) :=
  sort_features_perm_descending ["a", "b", "c"] [1, 3, 2] rfl

/-! Combined clustering (analysis.py `obtain_combined_clusters`) and the
driver script's write branch (scripts/calculate_combined_clusters.py). -/

/-- Parameters of a `pyemma.coordinates.cluster_kmeans(data, k=..., max_iter=...)`
call; the clustering itself is an external PyEMMA computation. -/
structure KMeansCall where
  data : List (List ℚ)
  k : ℕ
  max_iter : ℕ

/-- Parameters of a `pyemma.coordinates.cluster_regspace(data, dmin)` call. -/
structure RegspaceCall where
  data : List (List ℚ)
  dmin : ℚ

/-- The k-means invocation of analysis.py line 587:
`pyemma.coordinates.cluster_kmeans(data, k=num_clusters, max_iter=100)`.
The source passes the literal `100`, not the function's `max_iter` argument
(contrast `obtain_clusters`, line 531, which does pass it through). -/
def obtain_combined_clusters_kmeans_call (data_g data_a : List (List ℚ))
    (num_clusters max_iter : ℕ) : KMeansCall :=
  ⟨data_g ++ data_a, num_clusters, 100⟩

/-- `np.unique(cidx)`: the sorted distinct cluster ids. -/
def npUnique (l : List ℕ) : List ℕ :=
  (l.mergeSort (fun a b => decide (a ≤ b))).dedup

/-- The member rows `data[np.where(cidx == i)]` of cluster `i` (line 599). -/
def clusterMembers (data : List (List ℚ)) (cidx : List ℕ) (i : ℕ) : List (List ℚ) :=
  ((data.zip cidx).filter (fun p => decide (p.2 = i))).map Prod.fst

/-- Componentwise vector addition (for `np.mean(cluster_data, 0)`). -/
def vecAdd (xs ys : List ℚ) : List ℚ := List.zipWith (· + ·) xs ys

/-- `np.mean(cluster_data, 0)` (line 601): the componentwise mean of the
member rows (junk `[]` on no members, where NumPy would produce NaN). -/
def centroidOf (rows : List (List ℚ)) : List ℚ :=
  match rows with
  | [] => []
  | r :: rs => (rs.foldl vecAdd r).map (fun s => s / ((rs.length + 1 : ℕ) : ℚ))

/-- Squared Euclidean distance of one member row to the centroid. -/
def rowSqDist (row centroid : List ℚ) : ℚ :=
  (List.zipWith (fun x c => (x - c) ^ 2) row centroid).sum

/-- `np.sum((cluster_data - cluster_centroid)**2)` (line 604). -/
def clusterWss (rows : List (List ℚ)) (centroid : List ℚ) : ℚ :=
  (rows.map (fun r => rowSqDist r centroid)).sum

/-- The centroid/WSS loop of `obtain_combined_clusters` (lines 594-605):
`for i in np.unique(cidx)` appends the centroid of cluster `i` and adds its
within-cluster sum of squares to the running total. -/
def centroidsAndWss (data : List (List ℚ)) (cidx : List ℕ) : List (List ℚ) × ℚ :=
  (npUnique cidx).foldl
    (fun acc i =>
      (acc.1 ++ [centroidOf (clusterMembers data cidx i)],
       acc.2 + clusterWss (clusterMembers data cidx i)
                 (centroidOf (clusterMembers data cidx i))))
    ([], 0)

/-- Embedding of `obtain_combined_clusters` (analysis.py lines 546-623).  The
PyEMMA clustering algorithms are external and are passed in as functions of
exactly the call parameters the source hands them; the returned tuple is
`(cidx, cond, oidx, total_wss, centroids)` of line 623.  The `label_g`,
`label_a`, `plot` and `saveas` parameters only feed the matplotlib plotting
of lines 608-621, which does not affect the returned value and is dropped. -/
def obtain_combined_clusters
    (ckmeans : KMeansCall → List ℕ) (crspace : RegspaceCall → List ℕ)
    (data_g data_a : List (List ℚ)) (start_frame : ℕ)
    (algorithm : String) (num_clusters : ℕ) (min_dist : ℚ) (max_iter : ℕ) :
    Except String (List ℕ × List ℚ × List ℕ × ℚ × List (List ℚ)) :=
  let data := data_g ++ data_a
  let cond := List.replicate data_g.length (1 : ℚ) ++ List.replicate data_a.length (0 : ℚ)
  let oidx := (List.range data_g.length).map (fun p => p + start_frame) ++
              (List.range data_a.length).map (fun p => p + start_frame)
  if algorithm = "kmeans" ∨ algorithm = "rspace" then
    let cidx := if algorithm = "kmeans"
      then ckmeans (obtain_combined_clusters_kmeans_call data_g data_a num_clusters max_iter)
      else crspace ⟨data, min_dist⟩
    .ok (cidx, cond, oidx, (centroidsAndWss data cidx).2, (centroidsAndWss data cidx).1)
  else .error "AssertionError"

/-- Boolean-mask selection `cidx[cond == v]` of NumPy. -/
def maskSel (cidx : List ℕ) (cond : List ℚ) (v : ℚ) : List ℕ :=
  ((cidx.zip cond).filter (fun p => decide (p.2 = v))).map Prod.fst

/-- The two `write_cluster_traj` calls of the write branch of
scripts/calculate_combined_clusters.py (lines 71-75).  Each tuple holds the
arguments (cluster_idx, top_file, trj_file, out_name, start_frame); the
trajectory writing itself is external MDAnalysis I/O.  Both calls pass
`cidx[cond==0]` as the cluster-index array. -/
def driver_write_branch_calls (cidx : List ℕ) (cond : List ℚ)
    (ref_file_a trj_file_a out_frames_a ref_file_b trj_file_b out_frames_b : String)
    (start_frame : ℕ) :
    (List ℕ × String × String × String × ℕ) × (List ℕ × String × String × String × ℕ) :=
  ((maskSel cidx cond 0, ref_file_a, trj_file_a, out_frames_a, start_frame),
   (maskSel cidx cond 0, ref_file_b, trj_file_b, out_frames_b, start_frame))

section ClusterLemmas

theorem getD_append_lt {α : Type} (l1 l2 : List α) (d : α) (j : ℕ) (h : j < l1.length) :
    (l1 ++ l2).getD j d = l1.getD j d := by
  rw [List.getD_eq_getElem _ _ (show j < (l1 ++ l2).length by
      rw [List.length_append]; omega),
    List.getElem_append_left h, List.getD_eq_getElem _ _ h]

theorem getD_append_ge {α : Type} (l1 l2 : List α) (d : α) (j : ℕ)
    (h1 : l1.length ≤ j) (h2 : j < l1.length + l2.length) :
    (l1 ++ l2).getD j d = l2.getD (j - l1.length) d := by
  rw [List.getD_eq_getElem _ _ (show j < (l1 ++ l2).length by
      rw [List.length_append]; omega),
    List.getElem_append_right h1, List.getD_eq_getElem _ _ (by omega)]

theorem getD_replicate {α : Type} (a d : α) {n j : ℕ} (h : j < n) :
    (List.replicate n a).getD j d = a := by
  rw [List.getD_eq_getElem _ _ (by simpa using h), List.getElem_replicate]

theorem getD_map_range_add (s : ℕ) {n j : ℕ} (h : j < n) :
    ((List.range n).map (fun p => p + s)).getD j 0 = j + s := by
  rw [List.getD_eq_getElem _ _ (by simpa using h), List.getElem_map, List.getElem_range]

theorem mem_npUnique {i : ℕ} {l : List ℕ} : i ∈ npUnique l ↔ i ∈ l := by
  unfold npUnique
  rw [List.mem_dedup, List.mem_mergeSort]

theorem foldl_append_add {α : Type} (f : α → List ℚ) (g : α → ℚ) (l : List α) :
    ∀ (cs : List (List ℚ)) (t : ℚ),
      l.foldl (fun acc i => (acc.1 ++ [f i], acc.2 + g i)) (cs, t)
        = (cs ++ l.map f, t + (l.map g).sum) := by
  induction l with
  | nil => intro cs t; simp
  | cons x xs ih =>
    intro cs t
    simp only [List.foldl_cons, List.map_cons, List.sum_cons, ih]
    rw [List.append_assoc, List.singleton_append, add_assoc]

theorem centroidsAndWss_eq (data : List (List ℚ)) (cidx : List ℕ) :
    centroidsAndWss data cidx
      = ((npUnique cidx).map (fun i => centroidOf (clusterMembers data cidx i)),
         ((npUnique cidx).map (fun i =>
            clusterWss (clusterMembers data cidx i)
              (centroidOf (clusterMembers data cidx i)))).sum) := by
  unfold centroidsAndWss
  rw [foldl_append_add (fun i => centroidOf (clusterMembers data cidx i))
    (fun i => clusterWss (clusterMembers data cidx i)
      (centroidOf (clusterMembers data cidx i))) (npUnique cidx) [] 0]
  simp

theorem clusterMembers_ne_nil {data : List (List ℚ)} {cidx : List ℕ} {i : ℕ}
    (hlen : cidx.length = data.length) (hi : i ∈ cidx) :
    clusterMembers data cidx i ≠ [] := by
  obtain ⟨p, hp, hpe⟩ := List.getElem_of_mem hi
  have hpd : p < data.length := hlen ▸ hp
  have hzip : p < (data.zip cidx).length := by
    rw [List.length_zip]; omega
  have hmem : (data[p], i) ∈ data.zip cidx := by
    have hz : (data.zip cidx)[p] = (data[p], cidx[p]) := List.getElem_zip
    rw [hpe] at hz
    exact hz ▸ List.getElem_mem hzip
  intro hni
  have hmm : data[p] ∈ clusterMembers data cidx i :=
    List.mem_map.mpr ⟨(data[p], i), List.mem_filter.mpr ⟨hmem, by simp⟩, rfl⟩
  rw [hni] at hmm
  cases hmm

theorem zipWith_sq_sum_nonneg :
    ∀ xs ys : List ℚ, 0 ≤ (List.zipWith (fun x c => (x - c) ^ 2) xs ys).sum := by
  intro xs
  induction xs with
  | nil => intro ys; simp
  | cons x xs ih =>
    intro ys
    cases ys with
    | nil => simp
    | cons y ys =>
      simp only [List.zipWith_cons_cons, List.sum_cons]
      exact add_nonneg (sq_nonneg _) (ih ys)

theorem clusterWss_nonneg (rows : List (List ℚ)) (c : List ℚ) :
    0 ≤ clusterWss rows c := by
  unfold clusterWss
  apply List.sum_nonneg
  intro x hx
  obtain ⟨r, _, hr⟩ := List.mem_map.mp hx
  rw [← hr]
  exact zipWith_sq_sum_nonneg r c

end ClusterLemmas

/-! Claim theorems for clustering and the driver script. -/

/-- C3: `obtain_combined_clusters` clusters the concatenation of the first
ensemble's rows followed by the second's, tags each row with its source
(1 for the first ensemble, 0 for the second), records for each row the frame
index `local position + start_frame`, and returns those tag and index arrays
alongside the cluster assignment. -/
theorem obtain_combined_clusters_provenance
    (ckmeans : KMeansCall → List ℕ) (crspace : RegspaceCall → List ℕ)
    (data_g data_a : List (List ℚ)) (start_frame : ℕ)
    (num_clusters : ℕ) (min_dist : ℚ) (max_iter : ℕ) (j : ℕ) :
    obtain_combined_clusters ckmeans crspace data_g data_a start_frame
        "kmeans" num_clusters min_dist max_iter
      = .ok (ckmeans (obtain_combined_clusters_kmeans_call data_g data_a num_clusters max_iter),
             List.replicate data_g.length (1 : ℚ) ++ List.replicate data_a.length (0 : ℚ),
             (List.range data_g.length).map (fun p => p + start_frame) ++
               (List.range data_a.length).map (fun p => p + start_frame),
             (centroidsAndWss (data_g ++ data_a)
               (ckmeans (obtain_combined_clusters_kmeans_call data_g data_a num_clusters max_iter))).2,
             (centroidsAndWss (data_g ++ data_a)
               (ckmeans (obtain_combined_clusters_kmeans_call data_g data_a num_clusters max_iter))).1)
    ∧ (j < data_g.length →
        (data_g ++ data_a).getD j [] = data_g.getD j []
        ∧ (List.replicate data_g.length (1 : ℚ) ++
            List.replicate data_a.length (0 : ℚ)).getD j 0 = 1
        ∧ ((List.range data_g.length).map (fun p => p + start_frame) ++
            (List.range data_a.length).map (fun p => p + start_frame)).getD j 0
              = j + start_frame)
    ∧ (data_g.length ≤ j → j < data_g.length + data_a.length →
        (data_g ++ data_a).getD j [] = data_a.getD (j - data_g.length) []
        ∧ (List.replicate data_g.length (1 : ℚ) ++
            List.replicate data_a.length (0 : ℚ)).getD j 0 = 0
        ∧ ((List.range data_g.length).map (fun p => p + start_frame) ++
            (List.range data_a.length).map (fun p => p + start_frame)).getD j 0
              = (j - data_g.length) + start_frame) := by
  refine ⟨?_, ?_, ?_⟩
  · unfold obtain_combined_clusters
    rw [if_pos (Or.inl rfl), if_pos rfl]
  · intro hj
    refine ⟨getD_append_lt _ _ _ _ hj, ?_, ?_⟩
    · rw [getD_append_lt _ _ _ _ (by simpa using hj), getD_replicate _ _ hj]
    · rw [getD_append_lt _ _ _ _ (by simpa using hj), getD_map_range_add _ hj]
  · intro hj1 hj2
    have hlt : j - data_g.length < data_a.length := by omega
    refine ⟨getD_append_ge _ _ _ _ hj1 hj2, ?_, ?_⟩
    · rw [getD_append_ge _ _ _ _ (by simpa using hj1) (by simp; omega)]
      rw [List.length_replicate, getD_replicate _ _ hlt]
    · rw [getD_append_ge _ _ _ _ (by simpa using hj1) (by simp; omega)]
      rw [List.length_map, List.length_range, getD_map_range_add _ hlt]

/-- Witness for C3: ensembles of sizes 1 and 1 with `start_frame = 3`. -/
theorem obtain_combined_clusters_provenance_witness :
    (([[0]] ++ [[5]] : List (List ℚ)).getD 0 [] = ([[0]] : List (List ℚ)).getD 0 []
      ∧ (List.replicate ([[0]] : List (List ℚ)).length (1 : ℚ) ++
          List.replicate ([[5]] : List (List ℚ)).length (0 : ℚ)).getD 0 0 = 1
      ∧ ((List.range ([[0]] : List (List ℚ)).length).map (fun p => p + 3) ++
          (List.range ([[5]] : List (List ℚ)).length).map (fun p => p + 3)).getD 0 0
            = 0 + 3)
    ∧ (([[0]] ++ [[5]] : List (List ℚ)).getD 1 []
          = ([[5]] : List (List ℚ)).getD (1 - ([[0]] : List (List ℚ)).length) []
      ∧ (List.replicate ([[0]] : List (List ℚ)).length (1 : ℚ) ++
          List.replicate ([[5]] : List (List ℚ)).length (0 : ℚ)).getD 1 0 = 0
      ∧ ((List.range ([[0]] : List (List ℚ)).length).map (fun p => p + 3) ++
          (List.range ([[5]] : List (List ℚ)).length).map (fun p => p + 3)).getD 1 0
            = (1 - ([[0]] : List (List ℚ)).length) + 3) := by
  obtain ⟨_, hleft, _⟩ := obtain_combined_clusters_provenance
    (fun _ => [0, 1]) (fun _ => []) [[0]] [[5]] 3 2 12 100 0
  obtain ⟨_, _, hright⟩ := obtain_combined_clusters_provenance
    (fun _ => [0, 1]) (fun _ => []) [[0]] [[5]] 3 2 12 100 1
  exact ⟨hleft (by norm_num), hright (by norm_num) (by norm_num)⟩

/-- C4: `obtain_combined_clusters` computes one centroid (the mean of the
member rows) per cluster id actually realized in the assignment, the
returned total WSS is the sum over those realized clusters of the member
squared distances to their centroid, the total is non-negative, and every
realized cluster has at least one member (so no centroid is the mean of an
empty set). -/
theorem obtain_combined_clusters_wss_centroids
    (ckmeans : KMeansCall → List ℕ) (crspace : RegspaceCall → List ℕ)
    (data_g data_a : List (List ℚ)) (start_frame : ℕ)
    (num_clusters : ℕ) (min_dist : ℚ) (max_iter : ℕ)
    (hlen : (ckmeans (obtain_combined_clusters_kmeans_call data_g data_a num_clusters max_iter)).length
      = (data_g ++ data_a).length) :
    ∃ (cidx : List ℕ) (cond : List ℚ) (oidx : List ℕ) (wss : ℚ) (cents : List (List ℚ)),
      obtain_combined_clusters ckmeans crspace data_g data_a start_frame
          "kmeans" num_clusters min_dist max_iter
        = .ok (cidx, cond, oidx, wss, cents)
      ∧ cents = (npUnique cidx).map (fun i => centroidOf (clusterMembers (data_g ++ data_a) cidx i))
      ∧ wss = ((npUnique cidx).map (fun i =>
          clusterWss (clusterMembers (data_g ++ data_a) cidx i)
            (centroidOf (clusterMembers (data_g ++ data_a) cidx i)))).sum
      ∧ (∀ i ∈ npUnique cidx, i ∈ cidx ∧ clusterMembers (data_g ++ data_a) cidx i ≠ [])
      ∧ 0 ≤ wss := by
  refine ⟨ckmeans (obtain_combined_clusters_kmeans_call data_g data_a num_clusters max_iter),
    List.replicate data_g.length (1 : ℚ) ++ List.replicate data_a.length (0 : ℚ),
    (List.range data_g.length).map (fun p => p + start_frame) ++
      (List.range data_a.length).map (fun p => p + start_frame),
    (centroidsAndWss (data_g ++ data_a)
      (ckmeans (obtain_combined_clusters_kmeans_call data_g data_a num_clusters max_iter))).2,
    (centroidsAndWss (data_g ++ data_a)
      (ckmeans (obtain_combined_clusters_kmeans_call data_g data_a num_clusters max_iter))).1,
    ?_, ?_, ?_, ?_, ?_⟩
  · unfold obtain_combined_clusters
    rw [if_pos (Or.inl rfl), if_pos rfl]
  · rw [centroidsAndWss_eq]
  · rw [centroidsAndWss_eq]
  · intro i hi
    have hmem : i ∈ ckmeans (obtain_combined_clusters_kmeans_call data_g data_a num_clusters max_iter) :=
      mem_npUnique.mp hi
    exact ⟨hmem, clusterMembers_ne_nil hlen hmem⟩
  · rw [centroidsAndWss_eq]
    apply List.sum_nonneg
    intro x hx
    obtain ⟨i, _, hxe⟩ := List.mem_map.mp hx
    rw [← hxe]
    exact clusterWss_nonneg _ _

/-- Witness for C4 with a concrete external clustering returning `[0, 1, 0]`
on three concatenated rows. -/
theorem obtain_combined_clusters_wss_centroids_witness :
    ∃ (cidx : List ℕ) (cond : List ℚ) (oidx : List ℕ) (wss : ℚ) (cents : List (List ℚ)),
      obtain_combined_clusters (fun _ => [0, 1, 0]) (fun _ => [])
          [[0], [1]] [[5]] 0 "kmeans" 2 12 100
        = .ok (cidx, cond, oidx, wss, cents)
      ∧ cents = (npUnique cidx).map (fun i =>
          centroidOf (clusterMembers ([[0], [1]] ++ [[5]]) cidx i))
      ∧ wss = ((npUnique cidx).map (fun i =>
          clusterWss (clusterMembers ([[0], [1]] ++ [[5]]) cidx i)
            (centroidOf (clusterMembers ([[0], [1]] ++ [[5]]) cidx i)))).sum
      ∧ (∀ i ∈ npUnique cidx, i ∈ cidx ∧ clusterMembers ([[0], [1]] ++ [[5]]) cidx i ≠ [])
      ∧ 0 ≤ wss :=
  obtain_combined_clusters_wss_centroids (fun _ => [0, 1, 0]) (fun _ => [])
    [[0], [1]] [[5]] 0 2 12 100 (by decide)

/-- C10: the result of `obtain_combined_clusters` with `algorithm='kmeans'`
is independent of the `max_iter` argument — two calls differing only in
`max_iter` perform the identical k-means invocation, because line 587 passes
the literal `100` to `cluster_kmeans` instead of the parameter. -/
theorem obtain_combined_clusters_max_iter_independent
    (ckmeans : KMeansCall → List ℕ) (crspace : RegspaceCall → List ℕ)
    (data_g data_a : List (List ℚ)) (start_frame : ℕ)
    (num_clusters : ℕ) (min_dist : ℚ) (max_iter1 max_iter2 : ℕ) :
    obtain_combined_clusters ckmeans crspace data_g data_a start_frame
        "kmeans" num_clusters min_dist max_iter1
      = obtain_combined_clusters ckmeans crspace data_g data_a start_frame
        "kmeans" num_clusters min_dist max_iter2
    ∧ obtain_combined_clusters_kmeans_call data_g data_a num_clusters max_iter1
      = obtain_combined_clusters_kmeans_call data_g data_a num_clusters max_iter2 :=
  ⟨rfl, rfl⟩

/-- C6: in the driver script's write branch, the cluster-index array passed
to `write_cluster_traj` is `cidx[cond==0]` for both the ensemble-A call and
the ensemble-B call; `cidx[cond==1]` is never used, so both per-ensemble
groupings are driven by the identical (second ensemble's) assignment
subsequence — which in general differs from the first ensemble's own
subarray, as the concrete instance shows. -/
theorem driver_write_branch_same_subarray
    (cidx : List ℕ) (cond : List ℚ)
    (ref_file_a trj_file_a out_frames_a ref_file_b trj_file_b out_frames_b : String)
    (start_frame : ℕ) :
    (driver_write_branch_calls cidx cond ref_file_a trj_file_a out_frames_a
        ref_file_b trj_file_b out_frames_b start_frame).1.1 = maskSel cidx cond 0
    ∧ (driver_write_branch_calls cidx cond ref_file_a trj_file_a out_frames_a
        ref_file_b trj_file_b out_frames_b start_frame).2.1 = maskSel cidx cond 0
    ∧ maskSel [0, 1] [1, 0] 0 ≠ maskSel [0, 1] [1, 0] 1 :=
  ⟨rfl, rfl, by decide⟩

end Pensa
